import Mathlib

/-!
Shallow embedding of ducktail.js (Handlebars wrapper with a built-in file
cache) for verification of its specification.

The repository contains two variants of `lib/ducktail.js`:
* a later variant (`render` / `renderFile` / `renderTmpl` / `_get` /
  `_getTmpl` / `_returnCached` / `_returnRead` / `_cache` / `_getPartials` /
  `_register` / `_unregister` / `_loop`), in which the cache stores compiled
  templates, plus an `async.mapObj` helper; and
* an early variant (`render` / `_render` / `clearCache`), in which the cache
  stores raw template text.

External collaborators (the file system, Handlebars `compile`, and invocation
of a compiled template) are modelled as parameters (`Env`), per the spec's
external-interface contracts: `compile` may fail on malformed source,
invocation may fail at render time, and `fsRead` may fail with a read error.
`Except.error` at the outer level of a result models an uncaught synchronous
exception; callback invocations are logged explicitly so that "callback called
exactly once" style properties are statable.

Asynchronous callback scheduling (process.nextTick, fs.readFile callbacks,
async.parallel / async.each fan-out) is modelled by a deterministic sequential
schedule: tasks run to completion in program order (main template first, then
partials in key order).  File reads are logged in `St.reads`.
-/

namespace Ducktail

/-- Template data passed to a render: an opaque mapping consumed only by the
external engine's template invocation. -/
abbrev Data := List (String × String)

/- ---------------------------------------------------------------------------
 - Association-list primitives (JS objects keyed by string, and the
 - memory-cache store, are key -> value tables with at most one entry per key).
 - --------------------------------------------------------------------------- -/

/-- Lookup in a key-value table (JS object property access / cache.get). -/
def regGet [DecidableEq κ] (l : List (κ × α)) (k : κ) : Option α :=
  match l with
  | [] => none
  | (k1, v) :: rest => if k1 = k then some v else regGet rest k

/-- Remove every binding of key `k` (JS `delete obj[k]`). -/
def regDel [DecidableEq κ] (l : List (κ × α)) (k : κ) : List (κ × α) :=
  match l with
  | [] => []
  | (k1, v) :: rest => if k1 = k then regDel rest k else (k1, v) :: regDel rest k

/-- Insert-or-overwrite the binding of key `k` (JS `obj[k] = v` / cache.put). -/
def regPut [DecidableEq κ] (l : List (κ × α)) (k : κ) (v : α) : List (κ × α) :=
  (k, v) :: regDel l k

/- ---------------------------------------------------------------------------
 - Handlebars global registry and the external-collaborator interface.
 - --------------------------------------------------------------------------- -/

/-- Handlebars' process-wide registry: one table for partials (compiled
templates, type `T`) and one for helpers (functions, type `H`). -/
structure Registry (T H : Type) where
  partials : List (String × T)
  helpers : List (String × H)
deriving DecidableEq

/-- External collaborators, per the spec's interface contracts:
`compile` may raise on malformed source, `invoke` (calling a compiled
template on data, consulting the global registry) may raise at render time,
and `fsRead` may fail with a read error. -/
structure Env (T H : Type) where
  compile : String → Except String T
  invoke : T → Data → Registry T H → Except String String
  fsRead : String → Except String String

/-- Options accepted by `renderTmpl`: already-compiled partials and helper
functions; either field may be absent (JS `undefined`). -/
structure ROpts (T H : Type) where
  partials : Option (List (String × T))
  helpers : Option (List (String × H))

/-- The `_loop(obj, 'register...')` direction: iterate the pairs in order and
store each in the table (underscore `_.each` on `undefined` is a no-op, hence
the `Option.getD []`). -/
def loopPut [DecidableEq κ] (l : List (κ × α)) (pairs : List (κ × α)) :
    List (κ × α) :=
  pairs.foldl (fun acc kv => regPut acc kv.1 kv.2) l

/-- The `_loop(obj, 'unregister...')` direction: iterate the pairs in order
and delete each key from the table (Handlebars `unregisterPartial` /
`unregisterHelper` delete by name unconditionally). -/
def loopDel [DecidableEq κ] (l : List (κ × α)) (pairs : List (κ × β)) :
    List (κ × α) :=
  pairs.foldl (fun acc kv => regDel acc kv.1) l

/-- ducktail._register: registers every partial pair, then every helper pair,
with the Handlebars global registry. -/
def register (o : ROpts T H) (r : Registry T H) : Registry T H :=
  { partials := loopPut r.partials (o.partials.getD [])
    helpers := loopPut r.helpers (o.helpers.getD []) }

/-- ducktail._unregister: unregisters (deletes by name) every partial name,
then every helper name, from the Handlebars global registry. -/
def unregister (o : ROpts T H) (r : Registry T H) : Registry T H :=
  { partials := loopDel r.partials (o.partials.getD [])
    helpers := loopDel r.helpers (o.helpers.getD []) }

/-- First argument of `renderTmpl`: either an already-compiled template (a
function, in JS) or raw source text. -/
inductive TmplArg (T : Type) where
  | compiled (t : T)
  | src (s : String)

/-- ducktail.renderTmpl (later variant): compile the template if it is source
text (a compile failure raises before anything is registered); register
partials and helpers; invoke the template; on success unregister and return
the contents.  An exception raised by the template invocation propagates
without reaching the unregister step, leaving the registry as registered. -/
def renderTmpl (env : Env T H) (tmplArg : TmplArg T) (data : Data)
    (opts : Option (ROpts T H)) (reg : Registry T H) :
    Except String String × Registry T H :=
  match (match tmplArg with
         | .compiled t => Except.ok t
         | .src s => env.compile s) with
  | .error e => (.error e, reg)
  | .ok t =>
    let o := opts.getD ⟨none, none⟩
    let reg1 := register o reg
    match env.invoke t data reg1 with
    | .error e => (.error e, reg1)
    | .ok contents => (.ok contents, unregister o reg1)

/- ---------------------------------------------------------------------------
 - Process state threaded through the later variant: the memory-cache store
 - (compiled templates keyed by path), the Handlebars global registry, and a
 - log of the fs.readFile calls performed (instrumentation for the I/O-count
 - properties; the code itself does not keep such a log).
 - --------------------------------------------------------------------------- -/

/-- Process-wide state of the later variant. -/
structure St (T H : Type) where
  cache : List (String × T)
  reg : Registry T H
  reads : List String

/-- How the `_getTmpl` callback was scheduled: via `process.nextTick` on a
cache hit (`_returnCached`), or via the `fs.readFile` completion callback
(`_returnRead`). -/
inductive Via where
  | cacheHit
  | fileRead
deriving DecidableEq

/-- ducktail._getTmpl (with `_returnCached`, `_returnRead` and `_cache`
inlined): look the path up in the cache; on a hit, defer to the next tick and
call back with the cached compiled template, performing no file read; on a
miss, read the file (on read failure call back with the error and cache
nothing; on success compile — a compile failure raises, uncaught — then store
the compiled template in the cache and call back with it).  The outer
`Except.error` is an uncaught exception; the inner one is the error argument
of the callback.  Cached values are compiled-template functions, which are
always truthy in JS, so the hit test is plain presence. -/
def getTmpl (env : Env T H) (p : String) (s : St T H) :
    Except String (Except String T × Via) × St T H :=
  match regGet s.cache p with
  | some t => (.ok (.ok t, .cacheHit), s)
  | none =>
    match env.fsRead p with
    | .error e => (.ok (.error e, .fileRead), { s with reads := s.reads ++ [p] })
    | .ok src =>
      match env.compile src with
      | .error ce => (.error ce, { s with reads := s.reads ++ [p] })
      | .ok t =>
        (.ok (.ok t, .fileRead),
          { s with reads := s.reads ++ [p], cache := regPut s.cache p t })

/-- ducktail._getPartials via async.mapObj: resolve every `(name, path)` pair
through `_getTmpl`, collecting a `name → compiled` mapping; the first failure
is propagated (the partially built mapping that mapObj also passes along is
discarded by `_get` on error, so it is not modelled).  The fan-out of
async.each is modelled by the deterministic sequential schedule in key
order. -/
def getPartials (env : Env T H) (ps : List (String × String)) (s : St T H) :
    Except String (Except String (List (String × T))) × St T H :=
  match ps with
  | [] => (.ok (.ok []), s)
  | (name, pth) :: rest =>
    match getTmpl env pth s with
    | (.error ex, s1) => (.error ex, s1)
    | (.ok (.error e, _), s1) => (.ok (.error e), s1)
    | (.ok (.ok t, _), s1) =>
      match getPartials env rest s1 with
      | (.error ex, s2) => (.error ex, s2)
      | (.ok (.error e), s2) => (.ok (.error e), s2)
      | (.ok (.ok restMap), s2) => (.ok (.ok ((name, t) :: restMap)), s2)

/-- ducktail._get via async.parallel: resolve the main template and the
partials mapping; the first error is propagated and no result is produced; on
joint success the two-element result `[compiledMain, partialsMapping]` is
passed to the callback.  The parallel fan-out is modelled by the deterministic
sequential schedule: main template first, then the partials. -/
def get (env : Env T H) (p : String) (ps : List (String × String))
    (s : St T H) :
    Except String (Except String (T × List (String × T))) × St T H :=
  match getTmpl env p s with
  | (.error ex, s1) => (.error ex, s1)
  | (.ok (.error e, _), s1) => (.ok (.error e), s1)
  | (.ok (.ok t, _), s1) =>
    match getPartials env ps s1 with
    | (.error ex, s2) => (.error ex, s2)
    | (.ok (.error e), s2) => (.ok (.error e), s2)
    | (.ok (.ok pmap), s2) => (.ok (.ok (t, pmap)), s2)

/-- One invocation of the user's callback: `callback(err)` is `.error err`,
`callback(null, contents)` is `.ok contents`. -/
abbrev CbCall := Except String String

/-- ducktail.renderFile: fetch the main template and partials through `_get`;
on fetch error call back with that error; on success call
`callback(null, renderTmpl(main, data, {partials, helpers}))` — so when
`renderTmpl` raises, the exception propagates and the callback is never
invoked.  The first component lists the callback invocations performed, the
second is the uncaught exception if one escaped. -/
def renderFile (env : Env T H) (p : String) (data : Data)
    (partials : List (String × String)) (helpers : List (String × H))
    (s : St T H) : (List CbCall × Option String) × St T H :=
  match get env p partials s with
  | (.error ex, s1) => (([], some ex), s1)
  | (.ok (.error e), s1) => (([.error e], none), s1)
  | (.ok (.ok (t, pmap)), s1) =>
    match renderTmpl env (.compiled t) data (some ⟨some pmap, some helpers⟩) s1.reg with
    | (.error ex, reg1) => (([], some ex), { s1 with reg := reg1 })
    | (.ok contents, reg1) => (([.ok contents], none), { s1 with reg := reg1 })

/-- ducktail.clearCache: `cache.clear()` removes every entry. -/
def clearCache (s : St T H) : St T H :=
  { s with cache := [] }

/- ---------------------------------------------------------------------------
 - render's argument handling.  JS objects are references, so to state the
 - in-place mutation of the caller's options object the options objects live
 - in a small heap of address → object; `render` receives either a function
 - (the callback passed in options position), null, or a reference.
 - --------------------------------------------------------------------------- -/

/-- An options object as the caller builds it: either field may be absent. -/
structure ObjOpts (H : Type) where
  partials : Option (List (String × String))
  helpers : Option (List (String × H))

/-- Heap of options objects, address → object. -/
abbrev Heap (H : Type) := List (Nat × ObjOpts H)

/-- Heap lookup. -/
def heapGet (h : Heap H) (a : Nat) : Option (ObjOpts H) :=
  regGet h a

/-- Heap update (insert-or-overwrite at an address). -/
def heapPut (h : Heap H) (a : Nat) (o : ObjOpts H) : Heap H :=
  regPut h a o

/-- An address not yet bound in the heap. -/
def freshAddr (h : Heap H) : Nat :=
  (h.map Prod.fst).foldr max 0 + 1

/-- The third argument of `render`: a function (the callback, when options
are omitted), null, or a reference to an options object. -/
inductive OptsArg (H : Type) where
  | func
  | nullArg
  | ref (a : Nat)

/-- Normalization performed by `render`:
`opts.partials = opts.partials || {}` and `opts.helpers = opts.helpers || {}`
(absent fields become empty mappings; present mappings are kept — a present
empty object is truthy in JS and is kept as is). -/
def normOpts (o : ObjOpts H) : ObjOpts H :=
  { partials := some (o.partials.getD [])
    helpers := some (o.helpers.getD []) }

/-- Argument handling of ducktail.render: when the options argument is a
function it becomes the callback and options defaults to a fresh `{}`;
`null` raises a TypeError at the first property assignment; a reference is
normalized in place (the caller's object is mutated at its own address).
Returns the address of the options object that the rest of the call uses. -/
def handleArgs (arg : OptsArg H) (h : Heap H) : Except String (Nat × Heap H) :=
  match arg with
  | .func =>
    let a := freshAddr h
    .ok (a, heapPut h a (normOpts ⟨none, none⟩))
  | .nullArg => .error "TypeError: cannot assign property of null"
  | .ref a =>
    match heapGet h a with
    | none => .error "invalid reference"
    | some o => .ok (a, heapPut h a (normOpts o))

/-- ducktail.render (later variant): handle the optional options argument,
normalize `partials`/`helpers`, then delegate to `renderFile` with the
normalized options.  An argument-handling failure (null options) raises
synchronously. -/
def render (env : Env T H) (p : String) (data : Data) (arg : OptsArg H)
    (h : Heap H) (s : St T H) :
    Except String ((List CbCall × Option String) × St T H) × Heap H :=
  match handleArgs arg h with
  | .error e => (.error e, h)
  | .ok (a, h1) =>
    let o := (heapGet h1 a).getD ⟨none, none⟩
    (.ok (renderFile env p data (o.partials.getD []) (o.helpers.getD []) s), h1)

/- ---------------------------------------------------------------------------
 - Early variant: the cache stores raw template text, and `_render` compiles
 - on every call.  `cache.put(tmplPath, tmpl)` runs right after a successful
 - read, before the compile inside `_render` — so raw text reaches the cache
 - even when its compilation then fails.
 - --------------------------------------------------------------------------- -/

/-- Process-wide state of the early variant: the cache maps paths to raw
template text. -/
structure StE (T H : Type) where
  cache : List (String × String)
  reg : Registry T H
  reads : List String

/-- ducktail._render (early variant): `Handlebars.compile(tmpl)(data)`;
either step may raise. -/
def renderRaw (env : Env T H) (tmpl : String) (data : Data)
    (reg : Registry T H) : Except String String :=
  match env.compile tmpl with
  | .error e => .error e
  | .ok t => env.invoke t data reg

/-- Cache-miss path of the early variant's `render`: read the file (on error
call back with it, caching nothing); on success `cache.put(tmplPath, tmpl)`
stores the RAW text, and only then `_render` compiles and renders — an
exception there propagates uncaught, after the cache entry is already in
place. -/
def renderEarlyMiss (env : Env T H) (p : String) (data : Data) (s : StE T H) :
    (List CbCall × Option String) × StE T H :=
  match env.fsRead p with
  | .error e => (([.error e], none), { s with reads := s.reads ++ [p] })
  | .ok tmpl =>
    match renderRaw env tmpl data s.reg with
    | .error ex =>
      (([], some ex),
        { s with reads := s.reads ++ [p], cache := regPut s.cache p tmpl })
    | .ok out =>
      (([.ok out], none),
        { s with reads := s.reads ++ [p], cache := regPut s.cache p tmpl })

/-- ducktail.render (early variant): `var tmpl = cache.get(tmplPath);
if (tmpl) ...` — the hit test is JS truthiness, so cached empty text falls
through to the read path; on a hit, defer to the next tick and call
`callback(null, _render(tmpl, data))` (an exception from `_render`
propagates, skipping the callback). -/
def renderEarly (env : Env T H) (p : String) (data : Data) (s : StE T H) :
    (List CbCall × Option String) × StE T H :=
  match regGet s.cache p with
  | some tmpl =>
    if tmpl = "" then renderEarlyMiss env p data s
    else
      match renderRaw env tmpl data s.reg with
      | .error ex => (([], some ex), s)
      | .ok out => (([.ok out], none), s)
  | none => renderEarlyMiss env p data s

/-- clearCache in the early variant. -/
def clearCacheE (s : StE T H) : StE T H :=
  { s with cache := [] }

/- ---------------------------------------------------------------------------
 - Concrete external collaborators for witnesses and counterexamples.
 - Compiled templates are represented by their source text; invocation fails
 - exactly on the text "BOOM" (a template whose rendering raises, as the
 - engine contract allows), and compilation fails exactly on "\x7b\x7b" (an
 - unclosed mustache, malformed source per the engine contract).
 - --------------------------------------------------------------------------- -/

/-- Concrete environment over `T := String`, `H := Unit`: path "g" holds a
good template, path "b" a template whose rendering raises, path "m" malformed
source, and every other path is missing. -/
def envX : Env String Unit :=
  { compile := fun s => if s = "\x7b\x7b" then .error "parse" else .ok s
    invoke := fun t _ _ => if t = "B" then .error "boom" else .ok t
    fsRead := fun p =>
      if p = "g" then .ok "h"
      else if p = "b" then .ok "B"
      else if p = "m" then .ok "\x7b\x7b"
      else .error "ENOENT" }

/-- Empty later-variant state. -/
def st0 : St String Unit :=
  { cache := [], reg := ⟨[], []⟩, reads := [] }

/-- Empty early-variant state. -/
def stE0 : StE String Unit :=
  { cache := [], reg := ⟨[], []⟩, reads := [] }

/- ---------------------------------------------------------------------------
 - Lemmas on the key-value table primitives.
 - --------------------------------------------------------------------------- -/

theorem regGet_regDel_self [DecidableEq κ] (l : List (κ × α)) (k : κ) :
    regGet (regDel l k) k = none := by
  induction l with
  | nil => rfl
  | cons kv rest ih =>
    obtain ⟨k1, v⟩ := kv
    by_cases h : k1 = k
    · simpa [regDel, h] using ih
    · simpa [regDel, regGet, h] using ih

theorem regGet_regDel_ne [DecidableEq κ] (l : List (κ × α)) (k k1 : κ)
    (h : k1 ≠ k) : regGet (regDel l k) k1 = regGet l k1 := by
  induction l with
  | nil => rfl
  | cons kv rest ih =>
    obtain ⟨k0, v⟩ := kv
    by_cases hk : k0 = k
    · have hne : ¬ (k0 = k1) := fun hh => h (hh.symm.trans hk)
      simpa [regDel, hk, regGet, hne, Ne.symm h] using ih
    · by_cases hk1 : k0 = k1
      · simp [regDel, hk, regGet, hk1, h]
      · simpa [regDel, hk, regGet, hk1] using ih

theorem regGet_regPut_self [DecidableEq κ] (l : List (κ × α)) (k : κ) (v : α) :
    regGet (regPut l k v) k = some v := by
  simp [regPut, regGet]

theorem regGet_regPut_ne [DecidableEq κ] (l : List (κ × α)) (k k1 : κ) (v : α)
    (h : k1 ≠ k) : regGet (regPut l k v) k1 = regGet l k1 := by
  have hne : ¬ (k = k1) := fun hh => h hh.symm
  simp only [regPut, regGet, if_neg hne]
  exact regGet_regDel_ne l k k1 h

theorem loopDel_regGet [DecidableEq κ] (pairs : List (κ × β))
    (l : List (κ × α)) (k : κ) :
    regGet (loopDel l pairs) k =
      if k ∈ pairs.map Prod.fst then none else regGet l k := by
  induction pairs generalizing l with
  | nil => simp [loopDel]
  | cons kv rest ih =>
    show regGet (loopDel (regDel l kv.1) rest) k = _
    rw [ih]
    by_cases hmem : k ∈ rest.map Prod.fst
    · simp [hmem]
    · by_cases hk : k = kv.1
      · simp [hmem, hk, regGet_regDel_self]
      · simp [hmem, hk, regGet_regDel_ne _ _ _ hk]

theorem loopPut_regGet_notMem [DecidableEq κ] (pairs : List (κ × α))
    (l : List (κ × α)) (k : κ) (h : k ∉ pairs.map Prod.fst) :
    regGet (loopPut l pairs) k = regGet l k := by
  induction pairs generalizing l with
  | nil => rfl
  | cons kv rest ih =>
    simp only [List.map_cons, List.mem_cons] at h
    push_neg at h
    show regGet (loopPut (regPut l kv.1 kv.2) rest) k = _
    rw [ih _ h.2, regGet_regPut_ne _ _ _ _ h.1]

theorem loopPut_regGet_mem [DecidableEq κ] (pairs : List (κ × α))
    (l : List (κ × α)) (kv : κ × α)
    (hnd : (pairs.map Prod.fst).Nodup) (hmem : kv ∈ pairs) :
    regGet (loopPut l pairs) kv.1 = some kv.2 := by
  induction pairs generalizing l with
  | nil => cases hmem
  | cons kv0 rest ih =>
    simp only [List.map_cons, List.nodup_cons] at hnd
    rcases List.mem_cons.mp hmem with h | h
    · subst h
      show regGet (loopPut (regPut l kv.1 kv.2) rest) kv.1 = _
      rw [loopPut_regGet_notMem rest _ kv.1 hnd.1, regGet_regPut_self]
    · exact ih _ hnd.2 h

theorem regDel_sublist [DecidableEq κ] (l : List (κ × α)) (k : κ) :
    (regDel l k).Sublist l := by
  induction l with
  | nil => simp [regDel]
  | cons kv rest ih =>
    obtain ⟨k1, v⟩ := kv
    by_cases h : k1 = k
    · simpa [regDel, h] using ih.trans (List.sublist_cons_self _ _)
    · simpa [regDel, h] using ih.cons₂ (k1, v)

theorem notMem_keys_regDel [DecidableEq κ] (l : List (κ × α)) (k : κ) :
    k ∉ (regDel l k).map Prod.fst := by
  induction l with
  | nil => simp [regDel]
  | cons kv rest ih =>
    obtain ⟨k1, v⟩ := kv
    by_cases h : k1 = k
    · simpa [regDel, h] using ih
    · simpa [regDel, h, Ne.symm h] using ih

theorem keysNodup_regPut [DecidableEq κ] (l : List (κ × α)) (k : κ) (v : α)
    (h : (l.map Prod.fst).Nodup) : ((regPut l k v).map Prod.fst).Nodup := by
  simp only [regPut, List.map_cons, List.nodup_cons]
  exact ⟨notMem_keys_regDel l k,
    h.sublist (List.Sublist.map Prod.fst (regDel_sublist l k))⟩

theorem regGet_eq_none_of_notMem [DecidableEq κ] (l : List (κ × α)) (k : κ)
    (h : k ∉ l.map Prod.fst) : regGet l k = none := by
  induction l with
  | nil => rfl
  | cons kv rest ih =>
    simp only [List.map_cons, List.mem_cons] at h
    push_neg at h
    have hne : ¬ (kv.1 = k) := fun hh => h.1 hh.symm
    simp only [regGet, if_neg hne]
    exact ih h.2

/- ---------------------------------------------------------------------------
 - The cache invariant of the later variant: at most one entry per path
 - (no duplicate keys), and every entry's compiled template is the compile of
 - the text that the file system holds at that path — so the path was
 - successfully read and compiled when the entry was stored.
 - --------------------------------------------------------------------------- -/

/-- Invariant of the later variant's cache: at most one entry per path, and
presence of `(p, t)` implies that reading `p` succeeds with some source whose
compilation succeeds with exactly `t`. -/
def CacheOK (env : Env T H) (c : List (String × T)) : Prop :=
  (c.map Prod.fst).Nodup ∧
    ∀ p t, regGet c p = some t →
      ∃ src, env.fsRead p = .ok src ∧ env.compile src = .ok t

/-- Weaker invariant satisfied by the early variant's cache: at most one
entry per path, and presence of `(p, tmpl)` implies that reading `p` succeeds
with exactly the text `tmpl` — nothing about compilation, since the early
variant stores raw text before compiling. -/
def CacheOKE (env : Env T H) (c : List (String × String)) : Prop :=
  (c.map Prod.fst).Nodup ∧
    ∀ p tmpl, regGet c p = some tmpl → env.fsRead p = .ok tmpl

theorem cacheOK_nil (env : Env T H) : CacheOK env [] := by
  refine ⟨List.nodup_nil, fun p t h => ?_⟩
  simp [regGet] at h

theorem cacheOKE_nil (env : Env T H) : CacheOKE env [] := by
  refine ⟨List.nodup_nil, fun p t h => ?_⟩
  simp [regGet] at h

theorem cacheOK_regPut (env : Env T H) (c : List (String × T)) (p : String)
    (src : String) (t : T) (h : CacheOK env c) (hread : env.fsRead p = .ok src)
    (hcomp : env.compile src = .ok t) : CacheOK env (regPut c p t) := by
  refine ⟨keysNodup_regPut c p t h.1, fun q u hq => ?_⟩
  by_cases hqp : q = p
  · subst hqp
    rw [regGet_regPut_self] at hq
    simp only [Option.some.injEq] at hq
    subst hq
    exact ⟨src, hread, hcomp⟩
  · rw [regGet_regPut_ne c p q t hqp] at hq
    exact h.2 q u hq

theorem cacheOKE_regPut (env : Env T H) (c : List (String × String))
    (p : String) (tmpl : String) (h : CacheOKE env c)
    (hread : env.fsRead p = .ok tmpl) : CacheOKE env (regPut c p tmpl) := by
  refine ⟨keysNodup_regPut c p tmpl h.1, fun q u hq => ?_⟩
  by_cases hqp : q = p
  · subst hqp
    rw [regGet_regPut_self] at hq
    simp only [Option.some.injEq] at hq
    subst hq
    exact hread
  · rw [regGet_regPut_ne c p q tmpl hqp] at hq
    exact h.2 q u hq

theorem getTmpl_cacheOK (env : Env T H) (p : String) (s : St T H)
    (h : CacheOK env s.cache) : CacheOK env ((getTmpl env p s).2.cache) := by
  unfold getTmpl
  split
  · exact h
  · split
    · exact h
    · next src hread =>
      split
      · exact h
      · next t hcomp =>
        exact cacheOK_regPut env s.cache p src t h hread hcomp

theorem getPartials_cacheOK (env : Env T H) (ps : List (String × String))
    (s : St T H) (h : CacheOK env s.cache) :
    CacheOK env ((getPartials env ps s).2.cache) := by
  induction ps generalizing s with
  | nil => exact h
  | cons kv rest ih =>
    obtain ⟨name, pth⟩ := kv
    have h1 := getTmpl_cacheOK env pth s h
    unfold getPartials
    split
    · next s1 heq =>
      rw [heq] at h1
      exact h1
    · next s1 heq =>
      rw [heq] at h1
      exact h1
    · next t v s1 heq =>
      rw [heq] at h1
      have h2 := ih s1 h1
      split
      · next s2 heq2 =>
        rw [heq2] at h2
        exact h2
      · next s2 heq2 =>
        rw [heq2] at h2
        exact h2
      · next restMap s2 heq2 =>
        rw [heq2] at h2
        exact h2

theorem get_cacheOK (env : Env T H) (p : String)
    (ps : List (String × String)) (s : St T H) (h : CacheOK env s.cache) :
    CacheOK env ((get env p ps s).2.cache) := by
  have h1 := getTmpl_cacheOK env p s h
  unfold get
  split
  · next s1 heq =>
    rw [heq] at h1
    exact h1
  · next s1 heq =>
    rw [heq] at h1
    exact h1
  · next t v s1 heq =>
    rw [heq] at h1
    have h2 := getPartials_cacheOK env ps s1 h1
    split
    · next s2 heq2 =>
      rw [heq2] at h2
      exact h2
    · next s2 heq2 =>
      rw [heq2] at h2
      exact h2
    · next pmap s2 heq2 =>
      rw [heq2] at h2
      exact h2

theorem renderFile_cacheOK (env : Env T H) (p : String) (data : Data)
    (partials : List (String × String)) (helpers : List (String × H))
    (s : St T H) (h : CacheOK env s.cache) :
    CacheOK env ((renderFile env p data partials helpers s).2.cache) := by
  have h1 := get_cacheOK env p partials s h
  unfold renderFile
  split
  · next s1 heq =>
    rw [heq] at h1
    exact h1
  · next s1 heq =>
    rw [heq] at h1
    exact h1
  · next t pmap s1 heq =>
    rw [heq] at h1
    split
    · exact h1
    · exact h1

theorem renderEarlyMiss_cacheOKE (env : Env T H) (p : String) (data : Data)
    (s : StE T H) (h : CacheOKE env s.cache) :
    CacheOKE env ((renderEarlyMiss env p data s).2.cache) := by
  unfold renderEarlyMiss
  split
  · exact h
  · next tmpl hread =>
    have h2 := cacheOKE_regPut env s.cache p tmpl h hread
    split
    · exact h2
    · exact h2

theorem renderEarly_cacheOKE (env : Env T H) (p : String) (data : Data)
    (s : StE T H) (h : CacheOKE env s.cache) :
    CacheOKE env ((renderEarly env p data s).2.cache) := by
  unfold renderEarly
  split
  · next tmpl hget =>
    by_cases he : tmpl = ""
    · simpa [he] using renderEarlyMiss_cacheOKE env p data s h
    · simp only [if_neg he]
      split
      · exact h
      · exact h
  · exact renderEarlyMiss_cacheOKE env p data s h

/- ---------------------------------------------------------------------------
 - Plumbing lemmas: which state components each fetch operation can touch.
 - --------------------------------------------------------------------------- -/

theorem getTmpl_reg (env : Env T H) (p : String) (s : St T H) :
    (getTmpl env p s).2.reg = s.reg := by
  unfold getTmpl
  split
  · rfl
  · split
    · rfl
    · split
      · rfl
      · rfl

theorem getPartials_reg (env : Env T H) (ps : List (String × String))
    (s : St T H) : (getPartials env ps s).2.reg = s.reg := by
  induction ps generalizing s with
  | nil => rfl
  | cons kv rest ih =>
    obtain ⟨name, pth⟩ := kv
    have h1 := getTmpl_reg env pth s
    unfold getPartials
    split
    · next s1 heq =>
      rw [heq] at h1
      exact h1
    · next s1 heq =>
      rw [heq] at h1
      exact h1
    · next t v s1 heq =>
      rw [heq] at h1
      have h2 := ih s1
      split
      · next s2 heq2 =>
        rw [heq2] at h2
        exact h2.trans h1
      · next s2 heq2 =>
        rw [heq2] at h2
        exact h2.trans h1
      · next restMap s2 heq2 =>
        rw [heq2] at h2
        exact h2.trans h1

theorem get_reg (env : Env T H) (p : String) (ps : List (String × String))
    (s : St T H) : (get env p ps s).2.reg = s.reg := by
  have h1 := getTmpl_reg env p s
  unfold get
  split
  · next s1 heq =>
    rw [heq] at h1
    exact h1
  · next s1 heq =>
    rw [heq] at h1
    exact h1
  · next t v s1 heq =>
    rw [heq] at h1
    have h2 := getPartials_reg env ps s1
    split
    · next s2 heq2 =>
      rw [heq2] at h2
      exact h2.trans h1
    · next s2 heq2 =>
      rw [heq2] at h2
      exact h2.trans h1
    · next pmap s2 heq2 =>
      rw [heq2] at h2
      exact h2.trans h1

theorem renderFile_reads (env : Env T H) (p : String) (data : Data)
    (partials : List (String × String)) (helpers : List (String × H))
    (s : St T H) :
    (renderFile env p data partials helpers s).2.reads
      = (get env p partials s).2.reads := by
  unfold renderFile
  split
  · next s1 heq =>
    rw [heq]
  · next s1 heq =>
    rw [heq]
  · next t pmap s1 heq =>
    rw [heq]
    split
    · rfl
    · rfl

theorem renderFile_cache (env : Env T H) (p : String) (data : Data)
    (partials : List (String × String)) (helpers : List (String × H))
    (s : St T H) :
    (renderFile env p data partials helpers s).2.cache
      = (get env p partials s).2.cache := by
  unfold renderFile
  split
  · next s1 heq =>
    rw [heq]
  · next s1 heq =>
    rw [heq]
  · next t pmap s1 heq =>
    rw [heq]
    split
    · rfl
    · rfl

theorem get_nil (env : Env T H) (p : String) (s : St T H) :
    get env p [] s =
      match getTmpl env p s with
      | (.error ex, s1) => (.error ex, s1)
      | (.ok (.error e, _), s1) => (.ok (.error e), s1)
      | (.ok (.ok t, _), s1) => (.ok (.ok (t, [])), s1) := by
  unfold get
  split
  · rfl
  · rfl
  · rfl

theorem getTmpl_hit (env : Env T H) (p : String) (s : St T H) (t : T)
    (hhit : regGet s.cache p = some t) :
    getTmpl env p s = (.ok (.ok t, .cacheHit), s) := by
  unfold getTmpl
  rw [hhit]

theorem getTmpl_reads_miss (env : Env T H) (p : String) (s : St T H)
    (hmiss : regGet s.cache p = none) :
    (getTmpl env p s).2.reads = s.reads ++ [p] := by
  unfold getTmpl
  rw [hmiss]
  dsimp only
  split
  · rfl
  · split
    · rfl
    · rfl

theorem get_nil_state (env : Env T H) (p : String) (s : St T H) :
    (get env p [] s).2 = (getTmpl env p s).2 := by
  rw [get_nil]
  generalize getTmpl env p s = x
  obtain ⟨r, s1⟩ := x
  match r with
  | .error ex => rfl
  | .ok (.error e, v) => rfl
  | .ok (.ok t, v) => rfl

/-- C3: for a path not present in the cache whose file read fails, the read
error is propagated unchanged to the caller's callback and the cache is left
unchanged (no entry is created for that path); rendering such a path calls
back exactly once, with that non-null error and no rendered content. -/
theorem c3_read_error_propagates (env : Env T H) (p : String) (data : Data)
    (helpers : List (String × H)) (s : St T H) (e : String)
    (hmiss : regGet s.cache p = none) (hread : env.fsRead p = .error e) :
    getTmpl env p s
      = (.ok (.error e, .fileRead), { s with reads := s.reads ++ [p] }) ∧
    (getTmpl env p s).2.cache = s.cache ∧
    (renderFile env p data [] helpers s).1 = ([.error e], none) ∧
    (renderFile env p data [] helpers s).2.cache = s.cache := by
  have h1 : getTmpl env p s
      = (.ok (.error e, .fileRead), { s with reads := s.reads ++ [p] }) := by
    unfold getTmpl
    rw [hmiss, hread]
  have h2 : get env p [] s
      = (.ok (.error e), { s with reads := s.reads ++ [p] }) := by
    rw [get_nil, h1]
  refine ⟨h1, by rw [h1], ?_, ?_⟩
  · show (renderFile env p data [] helpers s).1 = _
    unfold renderFile
    rw [h2]
  · rw [renderFile_cache, h2]

/-- Witness for C3 at a concrete input: path "x" is absent from the empty
cache and missing on disk; rendering it calls back once with the read error
and caches nothing. -/
theorem c3_read_error_propagates_witness :
    (renderFile envX "x" [] [] [] st0).1 = ([.error "ENOENT"], none) ∧
    (renderFile envX "x" [] [] [] st0).2.cache = st0.cache :=
  (c3_read_error_propagates envX "x" [] [] st0 "ENOENT" rfl rfl).2.2

/-- C5: for a path already present in the cache, `_getTmpl` calls back with
the cached compiled template without touching the state (no file read) and
completes through the `process.nextTick` path; consequently rendering the
same template path twice performs exactly one file read (the second render
adds no read to the log). -/
theorem c5_cache_hit_avoids_io (env : Env T H) (p : String) (data : Data)
    (helpers : List (String × H)) (s : St T H) (src : String) (t : T) :
    (∀ u, regGet s.cache p = some u →
      getTmpl env p s = (.ok (.ok u, .cacheHit), s)) ∧
    (regGet s.cache p = none → env.fsRead p = .ok src →
      env.compile src = .ok t →
      (renderFile env p data [] helpers s).2.reads = s.reads ++ [p] ∧
      (renderFile env p data [] helpers
          ((renderFile env p data [] helpers s).2)).2.reads
        = s.reads ++ [p]) := by
  refine ⟨fun u hu => getTmpl_hit env p s u hu, fun hmiss hread hcomp => ?_⟩
  have hg : getTmpl env p s
      = (.ok (.ok t, .fileRead),
         { s with reads := s.reads ++ [p], cache := regPut s.cache p t }) := by
    unfold getTmpl
    rw [hmiss]
    dsimp only
    rw [hread]
    dsimp only
    rw [hcomp]
  have hga : get env p [] s
      = (.ok (.ok (t, [])),
         { s with reads := s.reads ++ [p], cache := regPut s.cache p t }) := by
    rw [get_nil, hg]
  have hr1 : (renderFile env p data [] helpers s).2.reads
      = s.reads ++ [p] := by
    rw [renderFile_reads, hga]
  have hchit : regGet ((renderFile env p data [] helpers s).2).cache p
      = some t := by
    rw [renderFile_cache, hga]
    exact regGet_regPut_self _ _ _
  refine ⟨hr1, ?_⟩
  rw [renderFile_reads, get_nil_state,
    getTmpl_hit env p ((renderFile env p data [] helpers s).2) t hchit]
  exact hr1

/-- Witness for C5 at a concrete input: path "g" is readable and compiles;
rendering it twice from the empty state logs exactly one read. -/
theorem c5_cache_hit_avoids_io_witness :
    (renderFile envX "g" [] [] [] st0).2.reads = [] ++ ["g"] ∧
    (renderFile envX "g" [] [] []
        ((renderFile envX "g" [] [] [] st0).2)).2.reads = [] ++ ["g"] :=
  (c5_cache_hit_avoids_io envX "g" [] [] st0 "h" "h").2 rfl rfl rfl

/-- C7: after `clearCache` the cache has no entries, every lookup returns
absent, and rendering any path (in particular a previously cached one) from
the cleared state performs a new file read. -/
theorem c7_clear_cache_forces_reload (env : Env T H) (p : String)
    (data : Data) (helpers : List (String × H)) (s : St T H) :
    (clearCache s).cache = [] ∧
    regGet (clearCache s).cache p = none ∧
    (renderFile env p data [] helpers (clearCache s)).2.reads
      = s.reads ++ [p] := by
  refine ⟨rfl, rfl, ?_⟩
  rw [renderFile_reads, get_nil_state,
    getTmpl_reads_miss env p (clearCache s) rfl]
  rfl

/-- C8: when the third argument of `render` is a function it is treated as
the callback and options defaults to the empty object; absent
`options.partials` / `options.helpers` fields are normalized to empty
mappings; and the call delegates to `renderFile` with the normalized
options. -/
theorem c8_render_normalizes_and_delegates (env : Env T H) (p : String)
    (data : Data) (h : Heap H) (s : St T H) :
    handleArgs (OptsArg.func (H := H)) h
      = .ok (freshAddr h, heapPut h (freshAddr h) ⟨some [], some []⟩) ∧
    render env p data .func h s
      = (.ok (renderFile env p data [] [] s),
         heapPut h (freshAddr h) ⟨some [], some []⟩) ∧
    (∀ a o, heapGet h a = some o →
      render env p data (.ref a) h s
        = (.ok (renderFile env p data (o.partials.getD [])
              (o.helpers.getD []) s),
           heapPut h a (normOpts o))) := by
  refine ⟨rfl, ?_, fun a o ha => ?_⟩
  · show render env p data .func h s = _
    unfold render handleArgs
    have hg : heapGet (heapPut h (freshAddr h) (normOpts ⟨none, none⟩))
        (freshAddr h) = some (normOpts ⟨none, none⟩) :=
      regGet_regPut_self h (freshAddr h) (normOpts ⟨none, none⟩)
    dsimp only
    rw [hg]
    rfl
  · unfold render handleArgs
    dsimp only
    rw [ha]
    have hg : heapGet (heapPut h a (normOpts o)) a = some (normOpts o) :=
      regGet_regPut_self h a (normOpts o)
    dsimp only
    rw [hg]
    simp [normOpts]

/-- C10: `render` mutates a caller-supplied options object in place — after
the call, the object at the caller's own address has non-absent `partials`
and `helpers` fields — and a null options argument raises (a TypeError at the
first property assignment) rather than defaulting. -/
theorem c10_render_mutates_opts_in_place (env : Env T H) (p : String)
    (data : Data) (h : Heap H) (s : St T H) (a : Nat) (o : ObjOpts H)
    (hobj : heapGet h a = some o) :
    (render env p data (.ref a) h s).2 = heapPut h a (normOpts o) ∧
    heapGet (render env p data (.ref a) h s).2 a
      = some ⟨some (o.partials.getD []), some (o.helpers.getD [])⟩ ∧
    render env p data .nullArg h s
      = (.error "TypeError: cannot assign property of null", h) := by
  have hr : render env p data (.ref a) h s
      = (.ok (renderFile env p data (o.partials.getD [])
            (o.helpers.getD []) s),
         heapPut h a (normOpts o)) := by
    unfold render handleArgs
    dsimp only
    rw [hobj]
    have hg : heapGet (heapPut h a (normOpts o)) a = some (normOpts o) :=
      regGet_regPut_self h a (normOpts o)
    dsimp only
    rw [hg]
    simp [normOpts]
  refine ⟨by rw [hr], ?_, rfl⟩
  rw [hr]
  exact regGet_regPut_self h a (normOpts o)

/-- Witness for C10 at a concrete input: a heap holding one options object
with both fields absent at address 0; after the call the object at address 0
has both fields present and empty. -/
theorem c10_render_mutates_opts_in_place_witness :
    (render envX "g" [] (.ref 0) [(0, ⟨none, none⟩)] st0).2
      = heapPut [(0, ⟨none, none⟩)] 0 (normOpts ⟨none, none⟩) ∧
    heapGet (render envX "g" [] (.ref 0) [(0, ⟨none, none⟩)] st0).2 0
      = some ⟨some [], some []⟩ ∧
    render envX "g" [] .nullArg [(0, ⟨none, none⟩)] st0
      = (.error "TypeError: cannot assign property of null",
         [(0, ⟨none, none⟩)]) :=
  c10_render_mutates_opts_in_place envX "g" [] [(0, ⟨none, none⟩)] st0 0
    ⟨none, none⟩ rfl

/-- C9: the unregistration step of `renderTmpl` removes every supplied
partial / helper name from the global registry unconditionally — in
particular, an entry under the same name that existed before the call
(the initial registry is arbitrary) is removed as well, not restored — so
after `renderTmpl` returns normally the registry contains no entry under any
supplied name. -/
theorem c9_unregister_unconditional (env : Env T H) (t : T) (data : Data)
    (o : ROpts T H) (reg : Registry T H) (c : String)
    (hok : (renderTmpl env (.compiled t) data (some o) reg).1 = .ok c) :
    (∀ k, k ∈ (o.partials.getD []).map Prod.fst →
      regGet (renderTmpl env (.compiled t) data (some o) reg).2.partials k
        = none) ∧
    (∀ k, k ∈ (o.helpers.getD []).map Prod.fst →
      regGet (renderTmpl env (.compiled t) data (some o) reg).2.helpers k
        = none) := by
  have hver : renderTmpl env (.compiled t) data (some o) reg
      = (match env.invoke t data (register o reg) with
         | .error e => (.error e, register o reg)
         | .ok contents => (.ok contents, unregister o (register o reg))) :=
    rfl
  cases hinv : env.invoke t data (register o reg) with
  | error e =>
    rw [hver, hinv] at hok
    exact absurd hok (by simp)
  | ok contents =>
    rw [hver, hinv]
    dsimp only
    constructor
    · intro k hk
      show regGet (loopDel (register o reg).partials (o.partials.getD [])) k
        = none
      rw [loopDel_regGet]
      simp [hk]
    · intro k hk
      show regGet (loopDel (register o reg).helpers (o.helpers.getD [])) k
        = none
      rw [loopDel_regGet]
      simp [hk]

/-- Witness for C9 at a concrete input: a render with partial "p" and helper
"f" over a registry that already held entries under both names; after the
successful call neither name is registered (the pre-existing entries were
removed, not restored). -/
theorem c9_unregister_unconditional_witness :
    regGet (renderTmpl envX (.compiled "h") []
        (some ⟨some [("p", "x")], some [("f", ())]⟩)
        ⟨[("p", "old")], [("f", ())]⟩).2.partials "p" = none ∧
    regGet (renderTmpl envX (.compiled "h") []
        (some ⟨some [("p", "x")], some [("f", ())]⟩)
        ⟨[("p", "old")], [("f", ())]⟩).2.helpers "f" = none :=
  ⟨(c9_unregister_unconditional envX "h" [] ⟨some [("p", "x")], some [("f", ())]⟩
      ⟨[("p", "old")], [("f", ())]⟩ "h" rfl).1 "p" (by simp),
   (c9_unregister_unconditional envX "h" [] ⟨some [("p", "x")], some [("f", ())]⟩
      ⟨[("p", "old")], [("f", ())]⟩ "h" rfl).2 "f" (by simp)⟩

/-- C1 (amended): `renderTmpl` registers every supplied (name, partial) and
(name, helper) pair with the global registry before invoking the template
(the invocation sees `register o reg`, which holds every supplied pair);
when the invocation returns normally the names are unregistered; but when
the invocation raises, the unregister step is skipped and the registry is
left in its fully registered state. -/
theorem c1_register_around_render (env : Env T H) (t : T) (data : Data)
    (o : ROpts T H) (reg : Registry T H)
    (hndp : ((o.partials.getD []).map Prod.fst).Nodup)
    (hndh : ((o.helpers.getD []).map Prod.fst).Nodup) :
    (∀ kv ∈ o.partials.getD [],
      regGet (register o reg).partials kv.1 = some kv.2) ∧
    (∀ kv ∈ o.helpers.getD [],
      regGet (register o reg).helpers kv.1 = some kv.2) ∧
    (∀ c, (renderTmpl env (.compiled t) data (some o) reg).1 = .ok c →
      env.invoke t data (register o reg) = .ok c ∧
      (renderTmpl env (.compiled t) data (some o) reg).2
        = unregister o (register o reg)) ∧
    (∀ e, (renderTmpl env (.compiled t) data (some o) reg).1 = .error e →
      env.invoke t data (register o reg) = .error e ∧
      (renderTmpl env (.compiled t) data (some o) reg).2
        = register o reg) := by
  have hver : renderTmpl env (.compiled t) data (some o) reg
      = (match env.invoke t data (register o reg) with
         | .error e => (.error e, register o reg)
         | .ok contents => (.ok contents, unregister o (register o reg))) :=
    rfl
  refine ⟨fun kv hkv => loopPut_regGet_mem _ _ kv hndp hkv,
          fun kv hkv => loopPut_regGet_mem _ _ kv hndh hkv,
          fun c hok => ?_, fun e herr => ?_⟩
  · rw [hver] at hok ⊢
    cases hinv : env.invoke t data (register o reg) with
    | error e2 =>
      rw [hinv] at hok
      exact absurd hok (by simp)
    | ok contents =>
      rw [hinv] at hok
      replace hok : contents = c := by simpa using hok
      subst hok
      exact ⟨rfl, rfl⟩
  · rw [hver] at herr ⊢
    cases hinv : env.invoke t data (register o reg) with
    | error e2 =>
      rw [hinv] at herr
      replace herr : e2 = e := by simpa using herr
      subst herr
      exact ⟨rfl, rfl⟩
    | ok contents =>
      rw [hinv] at herr
      exact absurd herr (by simp)

/-- Counterexample to C1 as stated: at a concrete input whose template
invocation raises, the supplied partial name "p" is still registered after
`renderTmpl` returns — the names are not unregistered on the exception
path. -/
theorem c1_register_around_render_cex :
    (renderTmpl envX (.compiled "B") [] (some ⟨some [("p", "x")], none⟩)
      ⟨[], []⟩).1 = .error "boom" ∧
    regGet (renderTmpl envX (.compiled "B") [] (some ⟨some [("p", "x")], none⟩)
      ⟨[], []⟩).2.partials "p" = some "x" :=
  ⟨rfl, rfl⟩

/-- Witness for C1 at a concrete input: after registration the supplied
partial pair is present in the registry that the invocation sees. -/
theorem c1_register_around_render_witness :
    regGet (register (⟨some [("p", "x")], some []⟩ : ROpts String Unit)
      ⟨[], []⟩).partials "p" = some "x" :=
  (c1_register_around_render envX "h" [] ⟨some [("p", "x")], some []⟩ ⟨[], []⟩
    (by simp) (by simp)).1 ("p", "x") (by simp)

/-- C2 (amended): every execution of `renderFile` invokes the callback at
most once, and exactly once precisely when no exception escapes — the
callback is invoked once with a single outcome on every execution where the
fetch succeeds or a file read fails, but when compilation of a fetched
template or the template invocation raises, the exception propagates
synchronously and the callback is invoked zero times. -/
theorem c2_callback_at_most_once (env : Env T H) (p : String) (data : Data)
    (partials : List (String × String)) (helpers : List (String × H))
    (s : St T H) :
    (renderFile env p data partials helpers s).1.1.length ≤ 1 ∧
    ((renderFile env p data partials helpers s).1.2 = none ↔
      (renderFile env p data partials helpers s).1.1.length = 1) := by
  unfold renderFile
  split
  · simp
  · simp
  · split
    · simp
    · simp

/-- Counterexample to C2 as stated: at a concrete input where the read and
compile succeed but the template invocation raises, the callback is invoked
zero times (not exactly once) and the exception escapes. -/
theorem c2_callback_at_most_once_cex :
    (renderFile envX "b" [] [] [] st0).1 = ([], some "boom") :=
  rfl

/-- C4 (amended): in the later variant every fetch operation and `clearCache`
preserve the cache invariant — at most one entry per path, and an entry's
presence implies its path currently reads and compiles successfully to
exactly the stored template; in the early variant only the weaker invariant
is preserved: presence implies the raw text was successfully read, the text
being cached before compilation is attempted. -/
theorem c4_cache_invariant (env : Env T H) (p : String) (data : Data)
    (ps : List (String × String)) (helpers : List (String × H))
    (s : St T H) (se : StE T H) :
    (CacheOK env s.cache → CacheOK env ((getTmpl env p s).2.cache)) ∧
    (CacheOK env s.cache → CacheOK env ((getPartials env ps s).2.cache)) ∧
    (CacheOK env s.cache → CacheOK env ((get env p ps s).2.cache)) ∧
    (CacheOK env s.cache →
      CacheOK env ((renderFile env p data ps helpers s).2.cache)) ∧
    CacheOK env ((clearCache s).cache) ∧
    (CacheOKE env se.cache →
      CacheOKE env ((renderEarly env p data se).2.cache)) ∧
    CacheOKE env ((clearCacheE se).cache) :=
  ⟨getTmpl_cacheOK env p s, getPartials_cacheOK env ps s,
   get_cacheOK env p ps s, renderFile_cacheOK env p data ps helpers s,
   cacheOK_nil env, renderEarly_cacheOKE env p data se, cacheOKE_nil env⟩

/-- Counterexample to C4 as stated: in the early variant, rendering path "m"
— whose file reads successfully but whose source fails to compile — stores a
cache entry for that path even though compilation of the stored text fails,
so presence does not imply a successful compile. -/
theorem c4_cache_invariant_cex :
    regGet ((renderEarly envX "m" [] stE0).2.cache) "m" = some "\x7b\x7b" ∧
    envX.compile "\x7b\x7b" = .error "parse" ∧
    (renderEarly envX "m" [] stE0).1 = ([], some "parse") :=
  ⟨rfl, rfl, rfl⟩

/- ---------------------------------------------------------------------------
 - Resolution lemmas: what a successful cache-or-load lookup returns, and how
 - fetch failures propagate through `_get` to `renderFile`.
 - --------------------------------------------------------------------------- -/

theorem getTmpl_ok_resolves (env : Env T H) (p : String) (s : St T H)
    (t : T) (v : Via) (s1 : St T H)
    (hok : getTmpl env p s = (.ok (.ok t, v), s1)) (hca : CacheOK env s.cache) :
    ∃ src, env.fsRead p = .ok src ∧ env.compile src = .ok t := by
  unfold getTmpl at hok
  cases hget : regGet s.cache p with
  | some u =>
    rw [hget] at hok
    dsimp only at hok
    simp only [Prod.mk.injEq, Except.ok.injEq] at hok
    obtain ⟨⟨ht, hv⟩, hs⟩ := hok
    subst ht
    exact hca.2 p u hget
  | none =>
    rw [hget] at hok
    dsimp only at hok
    cases hread : env.fsRead p with
    | error e =>
      rw [hread] at hok
      simp at hok
    | ok src =>
      rw [hread] at hok
      dsimp only at hok
      cases hcomp : env.compile src with
      | error ce =>
        rw [hcomp] at hok
        simp at hok
      | ok u =>
        rw [hcomp] at hok
        dsimp only at hok
        simp only [Prod.mk.injEq, Except.ok.injEq] at hok
        obtain ⟨⟨ht, hv⟩, hs⟩ := hok
        subst ht
        exact ⟨src, rfl, hcomp⟩

theorem getPartials_ok_resolves (env : Env T H) (ps : List (String × String))
    (s : St T H) (pmap : List (String × T)) (s2 : St T H)
    (hok : getPartials env ps s = (.ok (.ok pmap), s2)) :
    pmap.map Prod.fst = ps.map Prod.fst ∧
    (CacheOK env s.cache →
      List.Forall₂ (fun pr qr => qr.1 = pr.1 ∧
        ∃ src, env.fsRead pr.2 = .ok src ∧ env.compile src = .ok qr.2)
        ps pmap) := by
  induction ps generalizing s pmap s2 with
  | nil =>
    unfold getPartials at hok
    simp only [Prod.mk.injEq, Except.ok.injEq] at hok
    obtain ⟨hpm, hs⟩ := hok
    subst hpm
    exact ⟨rfl, fun _ => List.Forall₂.nil⟩
  | cons kv rest ih =>
    obtain ⟨name, pth⟩ := kv
    unfold getPartials at hok
    cases hg : getTmpl env pth s with
    | mk r s1 =>
      rw [hg] at hok
      cases r with
      | error ex =>
        simp at hok
      | ok pv =>
        obtain ⟨pr, v⟩ := pv
        cases pr with
        | error e =>
          simp at hok
        | ok t =>
          dsimp only at hok
          cases hp : getPartials env rest s1 with
          | mk r2 s2x =>
            rw [hp] at hok
            cases r2 with
            | error ex2 =>
              simp at hok
            | ok rr =>
              cases rr with
              | error e2 =>
                simp at hok
              | ok restMap =>
                dsimp only at hok
                simp only [Prod.mk.injEq, Except.ok.injEq] at hok
                obtain ⟨hpm, hs2⟩ := hok
                subst hpm
                have hrec := ih s1 restMap s2x hp
                refine ⟨by simp [hrec.1], fun hca => ?_⟩
                have hca1 : CacheOK env s1.cache := by
                  have h2 := getTmpl_cacheOK env pth s hca
                  rw [hg] at h2
                  exact h2
                exact List.Forall₂.cons
                  ⟨rfl, getTmpl_ok_resolves env pth s t v s1 hg hca⟩
                  (hrec.2 hca1)

theorem get_ok_split (env : Env T H) (p : String) (ps : List (String × String))
    (s : St T H) (t : T) (pmap : List (String × T)) (s2 : St T H)
    (hok : get env p ps s = (.ok (.ok (t, pmap)), s2)) :
    ∃ v s1, getTmpl env p s = (.ok (.ok t, v), s1) ∧
      getPartials env ps s1 = (.ok (.ok pmap), s2) := by
  unfold get at hok
  cases hg : getTmpl env p s with
  | mk r s1 =>
    rw [hg] at hok
    cases r with
    | error ex =>
      simp at hok
    | ok pv =>
      obtain ⟨pr, v⟩ := pv
      cases pr with
      | error e =>
        simp at hok
      | ok u =>
        dsimp only at hok
        cases hp : getPartials env ps s1 with
        | mk r2 s2x =>
          rw [hp] at hok
          cases r2 with
          | error ex2 =>
            simp at hok
          | ok rr =>
            cases rr with
            | error e2 =>
              simp at hok
            | ok pm2 =>
              dsimp only at hok
              simp only [Prod.mk.injEq, Except.ok.injEq] at hok
              obtain ⟨⟨ht, hpm⟩, hs⟩ := hok
              subst ht
              subst hpm
              subst hs
              exact ⟨v, s1, rfl, hp⟩

theorem getPartials_first_error (env : Env T H)
    (ps1 : List (String × String)) (name pth : String)
    (ps2 : List (String × String)) (s : St T H) (pmap1 : List (String × T))
    (s1 : St T H) (e : String) (v : Via) (s2 : St T H)
    (hpre : getPartials env ps1 s = (.ok (.ok pmap1), s1))
    (hfail : getTmpl env pth s1 = (.ok (.error e, v), s2)) :
    getPartials env (ps1 ++ (name, pth) :: ps2) s = (.ok (.error e), s2) := by
  induction ps1 generalizing s pmap1 with
  | nil =>
    unfold getPartials at hpre
    simp only [Prod.mk.injEq, Except.ok.injEq] at hpre
    obtain ⟨hpm, hs⟩ := hpre
    subst hs
    show getPartials env ((name, pth) :: ps2) s = _
    unfold getPartials
    rw [hfail]
  | cons kv ps1x ih =>
    obtain ⟨n0, p0⟩ := kv
    unfold getPartials at hpre
    show getPartials env ((n0, p0) :: (ps1x ++ (name, pth) :: ps2)) s = _
    unfold getPartials
    cases hg : getTmpl env p0 s with
    | mk r sx =>
      rw [hg] at hpre
      cases r with
      | error ex =>
        simp at hpre
      | ok pv =>
        obtain ⟨pr, v0⟩ := pv
        cases pr with
        | error e0 =>
          simp at hpre
        | ok t0 =>
          dsimp only at hpre ⊢
          cases hp : getPartials env ps1x sx with
          | mk r2 s2x =>
            rw [hp] at hpre
            cases r2 with
            | error ex2 =>
              simp at hpre
            | ok rr =>
              cases rr with
              | error e2 =>
                simp at hpre
              | ok restMap =>
                dsimp only at hpre
                simp only [Prod.mk.injEq, Except.ok.injEq] at hpre
                obtain ⟨hpm, hs⟩ := hpre
                subst hs
                rw [ih sx restMap hp]

theorem get_partials_error (env : Env T H) (p : String)
    (ps : List (String × String)) (s : St T H) (t : T) (v : Via)
    (s1 : St T H) (e : String) (s2 : St T H)
    (hmain : getTmpl env p s = (.ok (.ok t, v), s1))
    (hperr : getPartials env ps s1 = (.ok (.error e), s2)) :
    get env p ps s = (.ok (.error e), s2) := by
  unfold get
  rw [hmain]
  dsimp only
  rw [hperr]

theorem get_main_error (env : Env T H) (p : String)
    (ps : List (String × String)) (s : St T H) (e : String) (v : Via)
    (s1 : St T H) (hg : getTmpl env p s = (.ok (.error e, v), s1)) :
    get env p ps s = (.ok (.error e), s1) := by
  unfold get
  rw [hg]

theorem renderFile_fetch_error (env : Env T H) (p : String) (data : Data)
    (ps : List (String × String)) (helpers : List (String × H)) (s : St T H)
    (e : String) (hE : (get env p ps s).1 = .ok (.error e)) :
    (renderFile env p data ps helpers s).1 = ([.error e], none) ∧
    (renderFile env p data ps helpers s).2.reg = s.reg := by
  have hreg := get_reg env p ps s
  cases hget : get env p ps s with
  | mk r s2 =>
    rw [hget] at hE hreg
    dsimp only at hE hreg
    subst hE
    unfold renderFile
    rw [hget]
    exact ⟨rfl, hreg⟩

/-- C6: `_get` resolves the main template and every (name, partialPath) entry
through the same cache-or-load path (`_getTmpl`): when the main lookup calls
back with an error, `_get` propagates that first error (whether or not the
partials would also fail); when the main lookup succeeds, every partial
before some entry resolves, and that entry's `_getTmpl` lookup calls back
with an error, `async.mapObj` stops there and `_get` propagates that first
failing partial's error (whatever the remaining entries would do); in either
failure case rendering does not proceed — the callback is invoked once with
the error and the Handlebars registry is untouched; and on joint success
`_get` produces the two-element result of the compiled main template and a
partials mapping whose names are exactly the supplied ones, in order, each
name mapped to the compiled template of the file at its path. -/
theorem c6_get_parallel_fetch (env : Env T H) (p : String)
    (ps : List (String × String)) (data : Data) (helpers : List (String × H))
    (s : St T H) :
    (∀ e v s1, getTmpl env p s = (.ok (.error e, v), s1) →
      get env p ps s = (.ok (.error e), s1)) ∧
    (∀ ps1 name pth ps2 t v0 s0 pmap1 s1 e v s2,
      ps = ps1 ++ (name, pth) :: ps2 →
      getTmpl env p s = (.ok (.ok t, v0), s0) →
      getPartials env ps1 s0 = (.ok (.ok pmap1), s1) →
      getTmpl env pth s1 = (.ok (.error e, v), s2) →
      get env p ps s = (.ok (.error e), s2) ∧
      (renderFile env p data ps helpers s).1 = ([.error e], none) ∧
      (renderFile env p data ps helpers s).2.reg = s.reg) ∧
    (∀ e, (get env p ps s).1 = .ok (.error e) →
      (renderFile env p data ps helpers s).1 = ([.error e], none) ∧
      (renderFile env p data ps helpers s).2.reg = s.reg) ∧
    (∀ t pmap s2, get env p ps s = (.ok (.ok (t, pmap)), s2) →
      pmap.map Prod.fst = ps.map Prod.fst ∧
      (CacheOK env s.cache →
        (∃ src, env.fsRead p = .ok src ∧ env.compile src = .ok t) ∧
        List.Forall₂ (fun pr qr => qr.1 = pr.1 ∧
          ∃ src, env.fsRead pr.2 = .ok src ∧ env.compile src = .ok qr.2)
          ps pmap)) := by
  refine ⟨fun e v s1 hg => get_main_error env p ps s e v s1 hg,
          fun ps1 name pth ps2 t v0 s0 pmap1 s1 e v s2
            hps hmain hpre hfail => ?_,
          fun e hE => renderFile_fetch_error env p data ps helpers s e hE,
          fun t pmap s2 hok => ?_⟩
  · subst hps
    have hget : get env p (ps1 ++ (name, pth) :: ps2) s
        = (.ok (.error e), s2) :=
      get_partials_error env p (ps1 ++ (name, pth) :: ps2) s t v0 s0 e s2
        hmain
        (getPartials_first_error env ps1 name pth ps2 s0 pmap1 s1 e v s2
          hpre hfail)
    have hrf := renderFile_fetch_error env p data (ps1 ++ (name, pth) :: ps2)
      helpers s e (by rw [hget])
    exact ⟨hget, hrf.1, hrf.2⟩
  · obtain ⟨v, s1, hg, hp⟩ := get_ok_split env p ps s t pmap s2 hok
    have hrec := getPartials_ok_resolves env ps s1 pmap s2 hp
    refine ⟨hrec.1, fun hca => ?_⟩
    have hca1 : CacheOK env s1.cache := by
      have h2 := getTmpl_cacheOK env p s hca
      rw [hg] at h2
      exact h2
    exact ⟨getTmpl_ok_resolves env p s t v s1 hg hca, hrec.2 hca1⟩

end Ducktail
